import Mathlib

/-!
# boringproxy: tunnel supervisor, poller, connection router and byte splice

A shallow embedding of `src/client.go` and `src/boringproxy.go`.

* Go maps are association lists with unique keys (`AList`).  The order of the
  entries stands for the order in which a `range` loop visits them, which Go
  leaves unspecified; statements quantify over every such list.
* A `context.CancelFunc` is identified by the number of the context it
  cancels; `BoringProxyClient.contexts` counts the contexts created so far.
* Side effects (cancelling a worker, starting one, dialing, writing, closing)
  are recorded as lists of events in program order.
* A Go panic (calling a nil func, indexing an empty slice) is an explicit
  result: `none` for `SyncTunnels`, `PollResult.panicked` for `PollTunnels`.
-/

/-! ## Data model -/

/-- Modelled from the spec: the declaration of the `Tunnel` struct is not part of the
two source files. The fields are those section 3 of the specification lists, under the
names by which `BoreTunnel` reads them. Go compares two such structs with `!=` field by
field, which is the derived decidable equality. -/
structure Tunnel where
  Domain : String
  ServerAddress : String
  ServerPort : Int
  Username : String
  TunnelPrivateKey : String
  TunnelPort : Int
  ClientAddress : String
  ClientPort : Int
  AllowExternalTcp : Bool
  TlsTermination : String
deriving DecidableEq, Repr

/-- A Go `map[string]V`. -/
abbrev GoMap (V : Type) := AList (fun _ : String => V)

/-- A `context.CancelFunc`, named by the number of the context it cancels. -/
abbrev CancelFunc := Nat

/-- The fields of `BoringProxyClient` that reconciliation and polling read or write
(`client.go` lines 23-34). `contexts` is the number of contexts `BoreTunnel` has created. -/
structure BoringProxyClient where
  tunnels : GoMap Tunnel
  previousEtag : String
  cancelFuncs : GoMap CancelFunc
  contexts : Nat

/-- The maps and the validator as `NewBoringProxyClient` builds them (lines 85-92). -/
def NewBoringProxyClient : BoringProxyClient :=
  { tunnels := ∅, previousEtag := "", cancelFuncs := ∅, contexts := 0 }

/-- What the supervisor does to workers. `cancel k h` is the call `c.cancelFuncs[k]()`
where the map holds `h` for `k`; `bore k t h` is the call `c.BoreTunnel(t)` made while
handling key `k`, returning the cancel handle `h`. -/
inductive Event where
  | cancel (k : String) (h : CancelFunc)
  | bore (k : String) (tunnel : Tunnel) (h : CancelFunc)
deriving DecidableEq, Repr

/-- The map key an event was issued for. -/
def Event.domain : Event → String
  | .cancel k _ => k
  | .bore k _ _ => k

/-- The events of a log that were issued for key `k`, in order. -/
def eventsFor (k : String) (log : List Event) : List Event :=
  log.filter (fun e => decide (e.domain = k))

/-! ## Tunnel supervisor (`client.go`) -/

/-- `BoreTunnel` (lines 223-321) as the supervisor sees it: `context.WithCancel` makes a
fresh context, the worker goroutine is launched, the cancel func is returned. -/
def BoringProxyClient.BoreTunnel (c : BoringProxyClient) (_tunnel : Tunnel) :
    CancelFunc × BoringProxyClient :=
  (c.contexts, { c with contexts := c.contexts + 1 })

/-- Body of the first loop of `SyncTunnels` (lines 182-207) for the entry `k, newTun`.
Calling `c.cancelFuncs[k]` when the map has no such key calls a nil func: `none`. -/
def syncUpdate (k : String) (newTun : Tunnel) (s : BoringProxyClient × List Event) :
    Option (BoringProxyClient × List Event) :=
  match s.1.tunnels.lookup k with
  | none =>
    let c1 : BoringProxyClient := { s.1 with tunnels := s.1.tunnels.insert k newTun }
    let r := c1.BoreTunnel newTun
    some ({ r.2 with cancelFuncs := r.2.cancelFuncs.insert k r.1 },
      s.2 ++ [Event.bore k newTun r.1])
  | some tun =>
    if newTun ≠ tun then
      match s.1.cancelFuncs.lookup k with
      | none => none
      | some old =>
        let r := s.1.BoreTunnel newTun
        some ({ r.2 with cancelFuncs := r.2.cancelFuncs.insert k r.1 },
          s.2 ++ [Event.cancel k old, Event.bore k newTun r.1])
    else some s

/-- The first loop of `SyncTunnels`: `for k, newTun := range serverTunnels`. -/
def syncUpdateLoop : List (Sigma fun _ : String => Tunnel) → BoringProxyClient × List Event →
    Option (BoringProxyClient × List Event)
  | [], s => some s
  | e :: rest, s => (syncUpdate e.1 e.2 s).bind (syncUpdateLoop rest)

/-- Body of the second loop of `SyncTunnels` (lines 210-220) for the key `k`. -/
def syncDelete (serverTunnels : GoMap Tunnel) (k : String) (s : BoringProxyClient × List Event) :
    Option (BoringProxyClient × List Event) :=
  match serverTunnels.lookup k with
  | some _ => some s
  | none =>
    match s.1.cancelFuncs.lookup k with
    | none => none
    | some cancel =>
      some ({ s.1 with cancelFuncs := s.1.cancelFuncs.erase k, tunnels := s.1.tunnels.erase k },
        s.2 ++ [Event.cancel k cancel])

/-- The second loop of `SyncTunnels`: `for k, _ := range c.tunnels`. The body deletes only
the key it is visiting, so the keys visited are those present when the loop starts. -/
def syncDeleteLoop (serverTunnels : GoMap Tunnel) : List String → BoringProxyClient × List Event →
    Option (BoringProxyClient × List Event)
  | [], s => some s
  | k :: rest, s => (syncDelete serverTunnels k s).bind (syncDeleteLoop serverTunnels rest)

/-- `SyncTunnels` (lines 178-221): the client after the call and the events of the call,
or `none` when the call panics. -/
def BoringProxyClient.SyncTunnels (c : BoringProxyClient) (serverTunnels : GoMap Tunnel) :
    Option (BoringProxyClient × List Event) :=
  (syncUpdateLoop serverTunnels.entries (c, [])).bind
    fun s => syncDeleteLoop serverTunnels s.1.tunnels.keys s

/-- A sequence of `SyncTunnels` calls, the events of all calls appended to `log`. -/
def syncAll : List (GoMap Tunnel) → BoringProxyClient × List Event →
    Option (BoringProxyClient × List Event)
  | [], s => some s
  | d :: rest, s =>
    (s.1.SyncTunnels d).bind fun r => syncAll rest (r.1, s.2 ++ r.2)

/-- The two maps of the client have the same keys. -/
def KeysAgree (c : BoringProxyClient) : Prop :=
  ∀ k, k ∈ c.tunnels ↔ k ∈ c.cancelFuncs

/-- Whether the log holds a call of the cancel func `h`. -/
def cancelled (log : List Event) (h : CancelFunc) : Bool :=
  log.any fun e => match e with
    | .cancel _ h0 => decide (h0 = h)
    | .bore _ _ _ => false

/-- The workers started for key `k`, oldest first, each with its descriptor and handle. -/
def startedFor (k : String) (log : List Event) : List (Tunnel × CancelFunc) :=
  log.filterMap fun e => match e with
    | .bore j t h => if j = k then some (t, h) else none
    | .cancel _ _ => none

/-- The worker currently running for `k`: the most recently started worker for `k` whose
cancel func has not been called. -/
def runningWorker (k : String) (log : List Event) : Option (Tunnel × CancelFunc) :=
  ((startedFor k log).filter fun w => !cancelled log w.2).getLast?

/-! ## Example descriptors -/

/-- A descriptor for `app.example` forwarding to local port 8080. -/
def tunA : Tunnel :=
  { Domain := "app.example", ServerAddress := "edge.example", ServerPort := 22,
    Username := "u", TunnelPrivateKey := "key", TunnelPort := 9000,
    ClientAddress := "127.0.0.1", ClientPort := 8080, AllowExternalTcp := false,
    TlsTermination := "server" }

/-- The descriptor `tunA` with `client_port` changed to 8081. -/
def tunB : Tunnel := { tunA with ClientPort := 8081 }

/-- A descriptor for a second domain. -/
def tunC : Tunnel := { tunA with Domain := "blog.example", TunnelPort := 9001 }

/-- The desired state `app.example ↦ tunA`. -/
def desiredA : GoMap Tunnel := AList.singleton "app.example" tunA

/-- The desired state `app.example ↦ tunB`. -/
def desiredB : GoMap Tunnel := AList.singleton "app.example" tunB

/-- The desired state `app.example ↦ tunB, blog.example ↦ tunC`. -/
def desiredBC : GoMap Tunnel := (AList.singleton "blog.example" tunC).insert "app.example" tunB

/-! ## Desired-state poller (`client.go`) -/

/-- The parts of an `http.Response` that `PollTunnels` reads. `Header` is the Go
`map[string][]string`; `Body` is what `ioutil.ReadAll` returns. -/
structure Response where
  StatusCode : Int
  Header : GoMap (List String)
  Body : String

/-- How the request of one poll ends: `http.NewRequest` fails, `c.httpClient.Do` fails,
or a response arrives. -/
inductive HttpOutcome where
  | newRequestError (err : String)
  | doError (err : String)
  | response (resp : Response)

/-- How a call of `PollTunnels` ends: it returns `err` (`none` is Go's `nil`) leaving the
client `c`, having called `SyncTunnels` once for each map in `calls` with the worker
events `events`; or it panics. -/
inductive PollResult where
  | returned (err : Option String) (c : BoringProxyClient) (calls : List (GoMap Tunnel))
      (events : List Event)
  | panicked (reason : String)

/-- `PollTunnels` (lines 132-176). `Unmarshal` stands for `json.Unmarshal` into a fresh
`map[string]Tunnel`. Indexing a missing header key yields the nil slice, whose element 0
does not exist: the index expression on line 157 panics. -/
def BoringProxyClient.PollTunnels (Unmarshal : String → Except String (GoMap Tunnel))
    (c : BoringProxyClient) (o : HttpOutcome) : PollResult :=
  match o with
  | .newRequestError err => .returned (some err) c [] []
  | .doError err => .returned (some err) c [] []
  | .response resp =>
    if resp.StatusCode ≠ 200 then
      .returned (some "Failed to listen (not 200 status)") c [] []
    else
      match (resp.Header.lookup "Etag").getD [] with
      | [] => .panicked "runtime error: index out of range [0] with length 0"
      | etag :: _ =>
        if etag ≠ c.previousEtag then
          match Unmarshal resp.Body with
          | .error err => .returned (some err) c [] []
          | .ok tunnels =>
            match c.SyncTunnels tunnels with
            | none => .panicked "invalid memory address or nil pointer dereference"
            | some r => .returned none { r.1 with previousEtag := etag } [tunnels] r.2
        else .returned none c [] []

/-- What the poll loop of `RunPuppetClient` has done so far: the client, the lines given
to `log.Print`, the `SyncTunnels` calls and the worker events. -/
structure PollLoop where
  c : BoringProxyClient
  logged : List String
  calls : List (GoMap Tunnel)
  events : List Event

/-- The `for` loop of `RunPuppetClient` (lines 123-129) run for one iteration per request
outcome; `none` when an iteration panics, which ends the process. -/
def RunPuppetClientLoop (Unmarshal : String → Except String (GoMap Tunnel)) :
    List HttpOutcome → PollLoop → Option PollLoop
  | [], s => some s
  | o :: rest, s =>
    match s.c.PollTunnels Unmarshal o with
    | .panicked _ => none
    | .returned err c calls events =>
      RunPuppetClientLoop Unmarshal rest
        { c := c, logged := s.logged ++ err.toList, calls := s.calls ++ calls,
          events := s.events ++ events }

/-! ## Byte splices -/

/-- The connections a splice works on: the router's `decryptedConn`, the tunnel
connection `conn` of the client, and the dialed `upstreamConn` of either. -/
inductive Endpoint where
  | decryptedConn
  | conn
  | upstreamConn
deriving DecidableEq, Repr

/-- The dynamic type behind a `net.Conn`. -/
inductive ConnKind where
  | tcpConn
  | tlsConn
  | other
deriving DecidableEq, Repr

/-- What a copy goroutine does, in order. -/
inductive SpliceAction where
  | copy (dst src : Endpoint)
  | logPrintln (msg : String)
  | closeWrite (e : Endpoint)
  | close (e : Endpoint)
  | done
deriving DecidableEq, Repr

/-- First goroutine of the router's splice (`boringproxy.go` lines 313-317). -/
def serverCopyToClient : List SpliceAction :=
  [.copy .decryptedConn .upstreamConn, .done]

/-- Second goroutine of the router's splice (`boringproxy.go` lines 318-322). -/
def serverCopyToUpstream : List SpliceAction :=
  [.copy .upstreamConn .decryptedConn, .done]

/-- The goroutine "Copy request to upstream" of the client (`client.go` lines 358-371);
`copyErr` is the error `io.Copy` returns, `none` when the source reached EOF. -/
def clientCopyToUpstream (upstreamKind : ConnKind) (copyErr : Option String) :
    List SpliceAction :=
  [.copy .upstreamConn .conn] ++
  (match copyErr with
    | some err => [.logPrintln err]
    | none => []) ++
  (match upstreamKind with
    | .tcpConn => [.closeWrite .upstreamConn]
    | .tlsConn => [.closeWrite .upstreamConn]
    | .other => []) ++
  [.done]

/-- The goroutine "Copy response to downstream" of the client (`client.go` lines
374-387). -/
def clientCopyToDownstream (copyErr : Option String) : List SpliceAction :=
  [.copy .conn .upstreamConn] ++
  (match copyErr with
    | some err => [.logPrintln err]
    | none => []) ++
  [.close .conn, .done]

/-- What a connection handler does, in order. `spawn body` is a `go` statement whose
goroutine runs `body`; `wait` is `wg.Wait()`. -/
inductive Effect where
  | handshake
  | adminPush
  | getPort (serverName : String)
  | logPrint (msg : String)
  | write (data : String)
  | dial (useTls : Bool) (addr : String)
  | spawn (body : List SpliceAction)
  | wait
  | closeUpstream
  | close
deriving DecidableEq, Repr

/-- The variable `useTls` of the client's `handleConnection` (`client.go` lines 327-333):
whether `upstreamAddr` starts with `https://`. `strings.HasPrefix` is taken on the
character lists. -/
def upstreamUsesTls (upstreamAddr : String) : Bool :=
  "https://".toList.isPrefixOf upstreamAddr.toList

/-- The address the client's `handleConnection` dials (`client.go` lines 328-344): `addr`,
which is `upstreamAddr` without the `https://` prefix, then a colon and the port. -/
def upstreamTarget (upstreamAddr : String) (port : Int) : String :=
  (if upstreamUsesTls upstreamAddr then String.mk (upstreamAddr.toList.drop "https://".length)
    else upstreamAddr) ++ ":" ++ toString port

/-- The client's `handleConnection` (`client.go` lines 323-390). `Dial` gives the error of
`net.Dial` or `tls.Dial` on an address, `none` when the dial succeeds; the connection
it returns is a `*tls.Conn` from `tls.Dial` and a `*net.TCPConn` from `net.Dial`. -/
def BoringProxyClient.handleConnection (Dial : Bool → String → Option String)
    (upErr downErr : Option String) (upstreamAddr : String) (port : Int) : List Effect :=
  let useTls := upstreamUsesTls upstreamAddr
  let target := upstreamTarget upstreamAddr port
  match Dial useTls target with
  | some err => [.dial useTls target, .logPrint err, .close]
  | none =>
    let kind := if useTls then ConnKind.tlsConn else ConnKind.tcpConn
    [.dial useTls target, .spawn (clientCopyToUpstream kind upErr),
      .spawn (clientCopyToDownstream downErr), .wait, .closeUpstream, .close]

/-! ## Connection router (`boringproxy.go`) -/

/-- The `BoringProxyConfig` field the router reads. -/
structure BoringProxyConfig where
  AdminDomain : String

/-- The parts of `BoringProxy` the router uses. `GetPort` stands for `p.tunMan.GetPort`,
whose code is outside the two source files: its answer for each name is a parameter. -/
structure BoringProxy where
  config : BoringProxyConfig
  GetPort : String → Except String Int

/-- How the TLS handshake of one connection goes: `clientHello` is the `ServerName` the
`GetCertificate` callback was called with (`none` when it was never called), `err` the
error `Handshake()` returns. -/
structure Handshake where
  clientHello : Option String
  err : Option String

/-- The variable `serverName` after the handshake (lines 262-276): the empty string
unless the callback assigned it. -/
def Handshake.serverName (hs : Handshake) : String :=
  hs.clientHello.getD ""

/-- `handleAdminConnection` (lines 285-287). -/
def BoringProxy.handleAdminConnection (_p : BoringProxy) : List Effect :=
  [.adminPush]

/-- `handleTunnelConnection` (lines 289-325). `Dial` gives the error of `net.Dial` on an
address, `none` when it succeeds. The deferred closes run last, in reverse order. -/
def BoringProxy.handleTunnelConnection (p : BoringProxy) (Dial : String → Option String)
    (serverName : String) : List Effect :=
  match p.GetPort serverName with
  | .error err =>
    [.getPort serverName, .logPrint err,
      .write ("HTTP/1.1 500 Internal server error\n\nNo tunnel attached to " ++ serverName),
      .close]
  | .ok port =>
    let upstreamAddr := "127.0.0.1:" ++ toString port
    match Dial upstreamAddr with
    | some err => [.getPort serverName, .dial false upstreamAddr, .logPrint err, .close]
    | none =>
      [.getPort serverName, .dial false upstreamAddr, .spawn serverCopyToClient,
        .spawn serverCopyToUpstream, .wait, .closeUpstream, .close]

/-- The router's `handleConnection` (lines 258-283). The value `Handshake()` returns is
discarded on line 276. -/
def BoringProxy.handleConnection (p : BoringProxy) (Dial : String → Option String)
    (hs : Handshake) : List Effect :=
  .handshake ::
    (if hs.serverName = p.config.AdminDomain then p.handleAdminConnection
     else p.handleTunnelConnection Dial hs.serverName)

/-- Whether a handler wrote anything to the connection. -/
def wroteAny (tr : List Effect) : Bool :=
  tr.any fun e => match e with
    | .write _ => true
    | _ => false

/-- Whether a handler looked a name up in the registry. -/
def lookedUp (tr : List Effect) : Bool :=
  tr.any fun e => match e with
    | .getPort _ => true
    | _ => false

/-- The addresses a handler dialed, in order. -/
def dialed (tr : List Effect) : List String :=
  tr.filterMap fun e => match e with
    | .dial _ addr => some addr
    | _ => none

/-- The bodies of the goroutines a handler started, in order. -/
def spawned (tr : List Effect) : List (List SpliceAction) :=
  tr.filterMap fun e => match e with
    | .spawn body => some body
    | _ => none

/-- A router with admin domain `admin.example` and one registered tunnel,
`app.example` on port 9000. -/
def exampleProxy : BoringProxy :=
  { config := { AdminDomain := "admin.example" },
    GetPort := fun name =>
      if name = "app.example" then .ok 9000 else .error "no such tunnel" }

/-- A loopback on which nothing listens: every dial fails. -/
def noListener : String → Option String :=
  fun _ => some "connect: connection refused"

/-- A loopback on which every dial succeeds. -/
def allListening : String → Option String :=
  fun _ => none

/-- A `json.Unmarshal` that rejects every body. -/
def rejectJson : String → Except String (GoMap Tunnel) :=
  fun _ => .error "unexpected end of JSON input"

/-- A `json.Unmarshal` that reads the body `tunnels-v1` as the map `desiredA` and rejects
every other body. -/
def parseExample : String → Except String (GoMap Tunnel) :=
  fun body => if body = "tunnels-v1" then .ok desiredA else .error "invalid character"

/-- A 200 response carrying the validator `v1` and the body `tunnels-v1`. -/
def firstResponse : Response :=
  { StatusCode := 200, Header := AList.singleton "Etag" ["v1"], Body := "tunnels-v1" }

/-- A client with two running workers: `app.example` started with `tunA` (handle 0) and
`blog.example` started with `tunC` (handle 1). -/
def runningAC : BoringProxyClient :=
  { tunnels := (AList.singleton "blog.example" tunC).insert "app.example" tunA,
    previousEtag := "v1",
    cancelFuncs := (AList.singleton "blog.example" 1).insert "app.example" 0,
    contexts := 2 }

/-- A 200 response carrying the validator `v1`. -/
def sameEtagResponse : Response :=
  { StatusCode := 200, Header := AList.singleton "Etag" ["v1"], Body := "ignored" }

/-- A 200 response without an `Etag` header. -/
def noEtagResponse : Response :=
  { StatusCode := 200, Header := AList.singleton "Content-Type" ["application/json"],
    Body := "" }

/-! ## Lemmas on the supervisor loops -/

theorem eventsFor_append (k : String) (a b : List Event) :
    eventsFor k (a ++ b) = eventsFor k a ++ eventsFor k b := by
  simp [eventsFor]

/-- An iteration of the first loop for key `k` leaves every other key alone. -/
theorem syncUpdate_frame {k j : String} {t : Tunnel} {s s1 : BoringProxyClient × List Event}
    (h : syncUpdate k t s = some s1) (hj : j ≠ k) :
    s1.1.tunnels.lookup j = s.1.tunnels.lookup j ∧
      s1.1.cancelFuncs.lookup j = s.1.cancelFuncs.lookup j ∧
      eventsFor j s1.2 = eventsFor j s.2 := by
  have hk : ¬ k = j := fun e => hj e.symm
  unfold syncUpdate at h
  split at h
  · simp only [BoringProxyClient.BoreTunnel, Option.some.injEq] at h
    subst h
    simp [AList.lookup_insert_ne hj, eventsFor, Event.domain, hk]
  · split at h
    · split at h
      · exact absurd h (by simp)
      · simp only [BoringProxyClient.BoreTunnel, Option.some.injEq] at h
        subst h
        simp [AList.lookup_insert_ne hj, eventsFor, Event.domain, hk]
    · simp only [Option.some.injEq] at h
      subst h
      exact ⟨rfl, rfl, rfl⟩

/-- An iteration of the first loop succeeds when the two maps have the same keys, keeps
that, and adds exactly its key to them. -/
theorem syncUpdate_keys (k : String) (t : Tunnel) (s : BoringProxyClient × List Event)
    (hs : KeysAgree s.1) :
    ∃ s1, syncUpdate k t s = some s1 ∧ KeysAgree s1.1 ∧
      ∀ j, j ∈ s1.1.tunnels ↔ j = k ∨ j ∈ s.1.tunnels := by
  unfold syncUpdate
  cases hl : s.1.tunnels.lookup k with
  | none =>
    refine ⟨_, rfl, ?_, ?_⟩
    · intro j
      simp [BoringProxyClient.BoreTunnel, AList.mem_insert, hs j]
    · intro j
      simp [BoringProxyClient.BoreTunnel, AList.mem_insert]
  | some tun =>
    have hmem : k ∈ s.1.tunnels := by
      rw [← AList.lookup_isSome, hl]; rfl
    by_cases hne : t = tun
    · refine ⟨s, by simp [hne], hs, ?_⟩
      intro j
      constructor
      · exact fun h => Or.inr h
      · rintro (rfl | h)
        · exact hmem
        · exact h
    · have hc : k ∈ s.1.cancelFuncs := (hs k).1 hmem
      obtain ⟨old, hold⟩ := Option.isSome_iff_exists.1 (AList.lookup_isSome.2 hc)
      refine ⟨_, by simp [hne, hold]; rfl, ?_, ?_⟩
      · intro j
        simp only [BoringProxyClient.BoreTunnel, AList.mem_insert]
        constructor
        · intro h; exact Or.inr ((hs j).1 h)
        · rintro (rfl | h)
          · exact hmem
          · exact (hs j).2 h
      · intro j
        simp only [BoringProxyClient.BoreTunnel]
        constructor
        · exact fun h => Or.inr h
        · rintro (rfl | h)
          · exact hmem
          · exact h

/-- The first loop succeeds when the two maps have the same keys, keeps that, and adds
exactly the keys it visits. -/
theorem syncUpdateLoop_keys (L : List (Sigma fun _ : String => Tunnel)) :
    ∀ s : BoringProxyClient × List Event, KeysAgree s.1 →
      ∃ s1, syncUpdateLoop L s = some s1 ∧ KeysAgree s1.1 ∧
        ∀ j, j ∈ s1.1.tunnels ↔ j ∈ L.keys ∨ j ∈ s.1.tunnels := by
  induction L with
  | nil =>
    intro s hs
    exact ⟨s, rfl, hs, fun j => by simp⟩
  | cons e rest ih =>
    intro s hs
    obtain ⟨s1, h1, hk1, hm1⟩ := syncUpdate_keys e.1 e.2 s hs
    obtain ⟨s2, h2, hk2, hm2⟩ := ih s1 hk1
    refine ⟨s2, by simp [syncUpdateLoop, h1, h2], hk2, ?_⟩
    intro j
    rw [hm2 j, hm1 j, List.keys_cons, List.mem_cons]
    tauto

/-- The first loop leaves alone every key it does not visit. -/
theorem syncUpdateLoop_frame (j : String) (L : List (Sigma fun _ : String => Tunnel)) :
    ∀ s s1 : BoringProxyClient × List Event, syncUpdateLoop L s = some s1 → j ∉ L.keys →
      s1.1.tunnels.lookup j = s.1.tunnels.lookup j ∧
        s1.1.cancelFuncs.lookup j = s.1.cancelFuncs.lookup j ∧
        eventsFor j s1.2 = eventsFor j s.2 := by
  induction L with
  | nil =>
    intro s s1 h _
    simp only [syncUpdateLoop, Option.some.injEq] at h
    subst h
    exact ⟨rfl, rfl, rfl⟩
  | cons e rest ih =>
    intro s s1 h hj
    rw [List.keys_cons, List.mem_cons, not_or] at hj
    simp only [syncUpdateLoop] at h
    cases hu : syncUpdate e.1 e.2 s with
    | none => rw [hu] at h; exact absurd h (by simp)
    | some s0 =>
      rw [hu] at h
      obtain ⟨a1, a2, a3⟩ := syncUpdate_frame hu hj.1
      obtain ⟨b1, b2, b3⟩ := ih s0 s1 h hj.2
      exact ⟨b1.trans a1, b2.trans a2, b3.trans a3⟩

/-- What an iteration of the first loop does for its own key: the first three rows of
the reconciliation table. -/
theorem syncUpdate_at {k : String} {t : Tunnel} {s s1 : BoringProxyClient × List Event}
    (h : syncUpdate k t s = some s1) :
    (s.1.tunnels.lookup k = none →
        eventsFor k s1.2 = eventsFor k s.2 ++ [Event.bore k t s.1.contexts]) ∧
      (∀ tun old, s.1.tunnels.lookup k = some tun → t ≠ tun →
        s.1.cancelFuncs.lookup k = some old →
        eventsFor k s1.2 = eventsFor k s.2 ++ [Event.cancel k old, Event.bore k t s.1.contexts]) ∧
      (s.1.tunnels.lookup k = some t → eventsFor k s1.2 = eventsFor k s.2) := by
  unfold syncUpdate at h
  refine ⟨?_, ?_, ?_⟩
  · intro hl
    simp only [hl, BoringProxyClient.BoreTunnel, Option.some.injEq] at h
    subst h
    simp [eventsFor, Event.domain]
  · intro tun old hl hne hold
    simp only [hl, hold, ne_eq, hne, not_false_eq_true, if_true, BoringProxyClient.BoreTunnel,
      Option.some.injEq] at h
    subst h
    simp [eventsFor, Event.domain]
  · intro hl
    simp only [hl, ne_eq, not_true_eq_false, if_false, Option.some.injEq] at h
    subst h
    rfl

/-- What the first loop does for a key of the desired state. -/
theorem syncUpdateLoop_at (k : String) (d : Tunnel) (L : List (Sigma fun _ : String => Tunnel)) :
    ∀ s s1 : BoringProxyClient × List Event, L.NodupKeys → L.dlookup k = some d →
      syncUpdateLoop L s = some s1 →
      (s.1.tunnels.lookup k = none →
          ∃ h, eventsFor k s1.2 = eventsFor k s.2 ++ [Event.bore k d h]) ∧
        (∀ tun old, s.1.tunnels.lookup k = some tun → d ≠ tun →
          s.1.cancelFuncs.lookup k = some old →
          ∃ h, eventsFor k s1.2 = eventsFor k s.2 ++ [Event.cancel k old, Event.bore k d h]) ∧
        (s.1.tunnels.lookup k = some d → eventsFor k s1.2 = eventsFor k s.2) := by
  induction L with
  | nil =>
    intro s s1 _ hd
    simp at hd
  | cons e rest ih =>
    intro s s1 hnd hd h
    obtain ⟨k0, t0⟩ := e
    rw [List.nodupKeys_cons] at hnd
    simp only [syncUpdateLoop] at h
    cases hu : syncUpdate k0 t0 s with
    | none => rw [hu] at h; exact absurd h (by simp)
    | some s0 =>
      rw [hu] at h
      by_cases hk : k = k0
      · subst hk
        rw [List.dlookup_cons_eq] at hd
        simp only [Option.some.injEq] at hd
        subst hd
        obtain ⟨_, _, f3⟩ := syncUpdateLoop_frame k rest s0 s1 h hnd.1
        obtain ⟨a1, a2, a3⟩ := syncUpdate_at hu
        refine ⟨?_, ?_, ?_⟩
        · intro hl
          exact ⟨_, f3.trans (a1 hl)⟩
        · intro tun old hl hne hold
          exact ⟨_, f3.trans (a2 tun old hl hne hold)⟩
        · intro hl
          exact f3.trans (a3 hl)
      · rw [List.dlookup_cons_ne _ _ hk] at hd
        obtain ⟨g1, g2, g3⟩ := syncUpdate_frame hu hk
        obtain ⟨b1, b2, b3⟩ := ih s0 s1 hnd.2 hd h
        rw [g1, g3] at b1 b3
        rw [g1, g2, g3] at b2
        exact ⟨b1, b2, b3⟩

/-- An iteration of the second loop for key `k` leaves every other key alone. -/
theorem syncDelete_frame {D : GoMap Tunnel} {k j : String}
    {s s1 : BoringProxyClient × List Event} (h : syncDelete D k s = some s1) (hj : j ≠ k) :
    s1.1.tunnels.lookup j = s.1.tunnels.lookup j ∧
      s1.1.cancelFuncs.lookup j = s.1.cancelFuncs.lookup j ∧
      eventsFor j s1.2 = eventsFor j s.2 := by
  have hk : ¬ k = j := fun e => hj e.symm
  unfold syncDelete at h
  split at h
  · simp only [Option.some.injEq] at h
    subst h
    exact ⟨rfl, rfl, rfl⟩
  · split at h
    · exact absurd h (by simp)
    · simp only [Option.some.injEq] at h
      subst h
      simp [AList.lookup_erase_ne hj, eventsFor, Event.domain, hk]

/-- An iteration of the second loop for a key of the desired state does nothing. -/
theorem syncDelete_kept {D : GoMap Tunnel} {k : String} (hk : k ∈ D)
    (s : BoringProxyClient × List Event) : syncDelete D k s = some s := by
  obtain ⟨d, hd⟩ := Option.isSome_iff_exists.1 (AList.lookup_isSome.2 hk)
  simp [syncDelete, hd]

/-- An iteration of the second loop for a key that left the desired state: the last row
of the reconciliation table. -/
theorem syncDelete_gone {D : GoMap Tunnel} {k : String} (hk : k ∉ D)
    (s : BoringProxyClient × List Event) {old : CancelFunc}
    (hold : s.1.cancelFuncs.lookup k = some old) :
    syncDelete D k s =
      some ({ s.1 with cancelFuncs := s.1.cancelFuncs.erase k, tunnels := s.1.tunnels.erase k },
        s.2 ++ [Event.cancel k old]) := by
  simp [syncDelete, AList.lookup_eq_none.2 hk, hold]

/-- The second loop succeeds when every key it visits has a cancel func, and removes
from both maps exactly the visited keys that are not in the desired state. -/
theorem syncDeleteLoop_keys (D : GoMap Tunnel) (Ks : List String) :
    ∀ s : BoringProxyClient × List Event, Ks.Nodup → (∀ k ∈ Ks, k ∈ s.1.cancelFuncs) →
      ∃ s1, syncDeleteLoop D Ks s = some s1 ∧
        (∀ j, j ∈ s1.1.tunnels ↔ j ∈ s.1.tunnels ∧ (j ∈ Ks → j ∈ D)) ∧
        (∀ j, j ∈ s1.1.cancelFuncs ↔ j ∈ s.1.cancelFuncs ∧ (j ∈ Ks → j ∈ D)) := by
  induction Ks with
  | nil =>
    intro s _ _
    exact ⟨s, rfl, fun j => by simp, fun j => by simp⟩
  | cons k rest ih =>
    intro s hnd hall
    rw [List.nodup_cons] at hnd
    by_cases hk : k ∈ D
    · obtain ⟨s1, h1, m1, m2⟩ := ih s hnd.2 (fun j hj => hall j (List.mem_cons_of_mem _ hj))
      refine ⟨s1, by simp [syncDeleteLoop, syncDelete_kept hk, h1], ?_, ?_⟩
      · intro j
        rw [m1 j, List.mem_cons]
        constructor
        · rintro ⟨a, b⟩
          refine ⟨a, ?_⟩
          rintro (rfl | c)
          · exact hk
          · exact b c
        · rintro ⟨a, b⟩
          exact ⟨a, fun c => b (Or.inr c)⟩
      · intro j
        rw [m2 j, List.mem_cons]
        constructor
        · rintro ⟨a, b⟩
          refine ⟨a, ?_⟩
          rintro (rfl | c)
          · exact hk
          · exact b c
        · rintro ⟨a, b⟩
          exact ⟨a, fun c => b (Or.inr c)⟩
    · obtain ⟨old, hold⟩ :=
        Option.isSome_iff_exists.1 (AList.lookup_isSome.2 (hall k (List.mem_cons_self _ _)))
      have hrest : ∀ j ∈ rest, j ∈ (s.1.cancelFuncs.erase k) := by
        intro j hj
        rw [AList.mem_erase]
        refine ⟨?_, hall j (List.mem_cons_of_mem _ hj)⟩
        rintro rfl
        exact hnd.1 hj
      obtain ⟨s1, h1, m1, m2⟩ := ih
        ({ s.1 with cancelFuncs := s.1.cancelFuncs.erase k, tunnels := s.1.tunnels.erase k },
          s.2 ++ [Event.cancel k old]) hnd.2 hrest
      refine ⟨s1, by simp [syncDeleteLoop, syncDelete_gone hk s hold, h1], ?_, ?_⟩
      · intro j
        rw [m1 j, List.mem_cons]
        simp only [AList.mem_erase]
        constructor
        · rintro ⟨⟨a, b⟩, c⟩
          refine ⟨b, ?_⟩
          rintro (rfl | e)
          · exact absurd rfl a
          · exact c e
        · rintro ⟨a, b⟩
          refine ⟨⟨?_, a⟩, fun c => b (Or.inr c)⟩
          rintro rfl
          exact hk (b (Or.inl rfl))
      · intro j
        rw [m2 j, List.mem_cons]
        simp only [AList.mem_erase]
        constructor
        · rintro ⟨⟨a, b⟩, c⟩
          refine ⟨b, ?_⟩
          rintro (rfl | e)
          · exact absurd rfl a
          · exact c e
        · rintro ⟨a, b⟩
          refine ⟨⟨?_, a⟩, fun c => b (Or.inr c)⟩
          rintro rfl
          exact hk (b (Or.inl rfl))

/-- The second loop leaves alone every key it does not visit and every key of the
desired state. -/
theorem syncDeleteLoop_frame (D : GoMap Tunnel) (j : String) (Ks : List String) :
    ∀ s s1 : BoringProxyClient × List Event, syncDeleteLoop D Ks s = some s1 →
      (j ∉ Ks ∨ j ∈ D) →
      s1.1.tunnels.lookup j = s.1.tunnels.lookup j ∧
        s1.1.cancelFuncs.lookup j = s.1.cancelFuncs.lookup j ∧
        eventsFor j s1.2 = eventsFor j s.2 := by
  induction Ks with
  | nil =>
    intro s s1 h _
    simp only [syncDeleteLoop, Option.some.injEq] at h
    subst h
    exact ⟨rfl, rfl, rfl⟩
  | cons k rest ih =>
    intro s s1 h hj
    simp only [syncDeleteLoop] at h
    cases hu : syncDelete D k s with
    | none => rw [hu] at h; exact absurd h (by simp)
    | some s0 =>
      rw [hu] at h
      have hrest : j ∉ rest ∨ j ∈ D := by
        rcases hj with a | b
        · exact Or.inl (fun c => a (List.mem_cons_of_mem _ c))
        · exact Or.inr b
      obtain ⟨b1, b2, b3⟩ := ih s0 s1 h hrest
      by_cases hk : j = k
      · subst hk
        have hD : j ∈ D := by
          rcases hj with a | b
          · exact absurd (List.mem_cons_self _ _) a
          · exact b
        rw [syncDelete_kept hD, Option.some.injEq] at hu
        subst hu
        exact ⟨b1, b2, b3⟩
      · obtain ⟨a1, a2, a3⟩ := syncDelete_frame hu hk
        exact ⟨b1.trans a1, b2.trans a2, b3.trans a3⟩

/-- What the second loop does for a visited key that is not in the desired state. -/
theorem syncDeleteLoop_at (D : GoMap Tunnel) (j : String) (hD : j ∉ D) (Ks : List String) :
    ∀ (s s1 : BoringProxyClient × List Event) (old : CancelFunc), Ks.Nodup → j ∈ Ks →
      s.1.cancelFuncs.lookup j = some old → syncDeleteLoop D Ks s = some s1 →
      eventsFor j s1.2 = eventsFor j s.2 ++ [Event.cancel j old] := by
  induction Ks with
  | nil =>
    intro s s1 old _ hj
    simp at hj
  | cons k rest ih =>
    intro s s1 old hnd hj hold h
    rw [List.nodup_cons] at hnd
    simp only [syncDeleteLoop] at h
    cases hu : syncDelete D k s with
    | none => rw [hu] at h; exact absurd h (by simp)
    | some s0 =>
      rw [hu] at h
      by_cases hk : j = k
      · subst hk
        rw [syncDelete_gone hD s hold, Option.some.injEq] at hu
        subst hu
        obtain ⟨_, _, f3⟩ := syncDeleteLoop_frame D j rest _ s1 h (Or.inl hnd.1)
        rw [f3]
        simp [eventsFor, Event.domain]
      · rcases List.mem_cons.1 hj with a | a
        · exact absurd a hk
        · obtain ⟨_, a2, a3⟩ := syncDelete_frame hu hk
          rw [← a2] at hold
          rw [← a3]
          exact ih s0 s1 old hnd.2 a hold h

/-! ## Reconciliation: keys and the per-domain table -/

/-- Both loops of `SyncTunnels` run to the end when the two maps have the same keys; the
intermediate state after the first loop has them still. -/
theorem SyncTunnels_runs (c : BoringProxyClient) (D : GoMap Tunnel) (hc : KeysAgree c) :
    ∃ s1 s2, syncUpdateLoop D.entries (c, []) = some s1 ∧
      syncDeleteLoop D s1.1.tunnels.keys s1 = some s2 ∧
      c.SyncTunnels D = some s2 ∧ KeysAgree s1.1 ∧
      (∀ j, j ∈ s1.1.tunnels ↔ j ∈ D ∨ j ∈ c.tunnels) ∧
      (∀ j, j ∈ s2.1.tunnels ↔ j ∈ s1.1.tunnels ∧ (j ∈ s1.1.tunnels → j ∈ D)) ∧
      (∀ j, j ∈ s2.1.cancelFuncs ↔ j ∈ s1.1.cancelFuncs ∧ (j ∈ s1.1.tunnels → j ∈ D)) := by
  obtain ⟨s1, h1, hk1, hm1⟩ := syncUpdateLoop_keys D.entries (c, []) hc
  have hall : ∀ k ∈ s1.1.tunnels.keys, k ∈ s1.1.cancelFuncs :=
    fun k hk => (hk1 k).1 (AList.mem_keys.2 hk)
  obtain ⟨s2, h2, m1, m2⟩ := syncDeleteLoop_keys D s1.1.tunnels.keys s1 s1.1.tunnels.keys_nodup hall
  refine ⟨s1, s2, h1, h2, ?_, hk1, ?_, ?_, ?_⟩
  · simp [BoringProxyClient.SyncTunnels, h1, h2]
  · intro j
    rw [hm1 j]
    exact Iff.rfl
  · intro j
    rw [m1 j]
    exact Iff.rfl
  · intro j
    rw [m2 j]
    exact Iff.rfl

/-- C3. Reconciliation correctness (keys): from every client state whose `tunnels` and
`cancelFuncs` have the same keys, and for every desired map `D`, `SyncTunnels(D)` returns
and leaves both maps with exactly the keys of `D`. -/
theorem SyncTunnels_keys (c : BoringProxyClient) (D : GoMap Tunnel)
    (hc : ∀ k, k ∈ c.tunnels ↔ k ∈ c.cancelFuncs) :
    ∃ c1 evs, c.SyncTunnels D = some (c1, evs) ∧
      (∀ k, k ∈ c1.tunnels ↔ k ∈ D) ∧ (∀ k, k ∈ c1.cancelFuncs ↔ k ∈ D) := by
  obtain ⟨s1, s2, _, _, hs, hk1, hm1, m1, m2⟩ := SyncTunnels_runs c D hc
  refine ⟨s2.1, s2.2, hs, ?_, ?_⟩
  · intro k
    rw [m1 k, hm1 k]
    constructor
    · rintro ⟨a, b⟩
      exact b a
    · intro a
      exact ⟨Or.inl a, fun _ => a⟩
  · intro k
    rw [m2 k, ← hk1 k, hm1 k]
    constructor
    · rintro ⟨a, b⟩
      exact b a
    · intro a
      exact ⟨Or.inl a, fun _ => a⟩

/-- The client `runningAC` has the same keys in both maps. -/
theorem runningAC_keysAgree : ∀ k, k ∈ runningAC.tunnels ↔ k ∈ runningAC.cancelFuncs := by
  intro k
  simp [runningAC, AList.mem_insert, AList.mem_keys]

/-- C3 at a concrete input: `runningAC` reconciled with `desiredB` keeps exactly the key
`app.example` in both maps. -/
theorem SyncTunnels_keys_witness :
    (∀ k, k ∈ runningAC.tunnels ↔ k ∈ runningAC.cancelFuncs) ∧
      ∃ c1 evs, runningAC.SyncTunnels desiredB = some (c1, evs) ∧
        (∀ k, k ∈ c1.tunnels ↔ k ∈ desiredB) ∧ (∀ k, k ∈ c1.cancelFuncs ↔ k ∈ desiredB) :=
  ⟨runningAC_keysAgree, SyncTunnels_keys runningAC desiredB runningAC_keysAgree⟩

/-- C4. `SyncTunnels` implements the reconciliation table per domain: from every client
state whose `tunnels` and `cancelFuncs` have the same keys, a call `SyncTunnels(D)` returns,
and the events it issues for a domain `k` are (a) one worker start with `D[k]` and no
cancel when `k` is in `D` and not in `tunnels`; (b) one cancel of the handle held for `k`
followed by one worker start with `D[k]` when `k` is in both and `D[k]` differs from
`tunnels[k]`; (c) nothing when `k` is in both and `D[k]` equals `tunnels[k]`; (d) one
cancel of the handle held for `k` and no start when `k` is in `tunnels` and not in `D`;
and nothing when `k` is in neither. -/
theorem SyncTunnels_table (c : BoringProxyClient) (D : GoMap Tunnel)
    (hc : ∀ k, k ∈ c.tunnels ↔ k ∈ c.cancelFuncs) :
    ∃ c1 evs, c.SyncTunnels D = some (c1, evs) ∧
      (∀ k d, D.lookup k = some d → c.tunnels.lookup k = none →
        ∃ h, eventsFor k evs = [Event.bore k d h]) ∧
      (∀ k d tun, D.lookup k = some d → c.tunnels.lookup k = some tun → d ≠ tun →
        ∃ old h, c.cancelFuncs.lookup k = some old ∧
          eventsFor k evs = [Event.cancel k old, Event.bore k d h]) ∧
      (∀ k d, D.lookup k = some d → c.tunnels.lookup k = some d → eventsFor k evs = []) ∧
      (∀ k tun, D.lookup k = none → c.tunnels.lookup k = some tun →
        ∃ old, c.cancelFuncs.lookup k = some old ∧ eventsFor k evs = [Event.cancel k old]) ∧
      (∀ k, D.lookup k = none → c.tunnels.lookup k = none → eventsFor k evs = []) := by
  obtain ⟨s1, s2, h1, h2, hs, hk1, hm1, _, _⟩ := SyncTunnels_runs c D hc
  have inD : ∀ k d, D.lookup k = some d → k ∈ D := fun k d hd => by
    rw [← AList.lookup_isSome, hd]; rfl
  have held : ∀ k tun, c.tunnels.lookup k = some tun → ∃ old, c.cancelFuncs.lookup k = some old :=
    fun k tun ht => Option.isSome_iff_exists.1
      (AList.lookup_isSome.2 ((hc k).1 (by rw [← AList.lookup_isSome, ht]; rfl)))
  have upd := fun k d (hd : D.lookup k = some d) =>
    syncUpdateLoop_at k d D.entries (c, []) s1 D.nodupKeys hd h1
  have keep := fun k d (hd : D.lookup k = some d) =>
    (syncDeleteLoop_frame D k s1.1.tunnels.keys s1 s2 h2 (Or.inr (inD k d hd))).2.2
  have skip := fun k (hd : D.lookup k = none) =>
    syncUpdateLoop_frame k D.entries (c, []) s1 h1
      (fun hk => AList.lookup_eq_none.1 hd (AList.mem_keys.2 hk))
  refine ⟨s2.1, s2.2, hs, ?_, ?_, ?_, ?_, ?_⟩
  · intro k d hd ht
    obtain ⟨h, he⟩ := (upd k d hd).1 ht
    exact ⟨h, by rw [keep k d hd, he]; rfl⟩
  · intro k d tun hd ht hne
    obtain ⟨old, hold⟩ := held k tun ht
    obtain ⟨h, he⟩ := (upd k d hd).2.1 tun old ht hne hold
    exact ⟨old, h, hold, by rw [keep k d hd, he]; rfl⟩
  · intro k d hd ht
    rw [keep k d hd, (upd k d hd).2.2 ht]
    rfl
  · intro k tun hd ht
    obtain ⟨old, hold⟩ := held k tun ht
    obtain ⟨f1, f2, f3⟩ := skip k hd
    have hmem : k ∈ s1.1.tunnels.keys := by
      rw [← AList.mem_keys, ← AList.lookup_isSome, f1, ht]; rfl
    have hgone := syncDeleteLoop_at D k (AList.lookup_eq_none.1 hd) s1.1.tunnels.keys s1 s2 old
      s1.1.tunnels.keys_nodup hmem (f2.trans hold) h2
    exact ⟨old, hold, by rw [hgone, f3]; rfl⟩
  · intro k hd ht
    obtain ⟨f1, _, f3⟩ := skip k hd
    have hmem : k ∉ s1.1.tunnels.keys := by
      rw [← AList.mem_keys, ← AList.lookup_eq_none, f1, ht]
    rw [(syncDeleteLoop_frame D k s1.1.tunnels.keys s1 s2 h2 (Or.inl hmem)).2.2, f3]
    rfl

/-- C4 at concrete inputs. Reconciling `runningAC` with `desiredB` cancels handle 0 of
`app.example` once and starts one worker with `tunB`, and cancels handle 1 of
`blog.example` once without starting anything (scenario S4). Reconciling `runningAC` with
`desiredBC` restarts `app.example` in the same way and issues nothing for `blog.example`,
whose descriptor is unchanged (scenario S5). -/
theorem SyncTunnels_table_witness :
    (∀ k, k ∈ runningAC.tunnels ↔ k ∈ runningAC.cancelFuncs) ∧
      (∃ c1 evs, runningAC.SyncTunnels desiredB = some (c1, evs) ∧
        (∃ old h, runningAC.cancelFuncs.lookup "app.example" = some old ∧
          eventsFor "app.example" evs =
            [Event.cancel "app.example" old, Event.bore "app.example" tunB h]) ∧
        ∃ old, runningAC.cancelFuncs.lookup "blog.example" = some old ∧
          eventsFor "blog.example" evs = [Event.cancel "blog.example" old]) ∧
      ∃ c1 evs, runningAC.SyncTunnels desiredBC = some (c1, evs) ∧
        (∃ old h, runningAC.cancelFuncs.lookup "app.example" = some old ∧
          eventsFor "app.example" evs =
            [Event.cancel "app.example" old, Event.bore "app.example" tunB h]) ∧
        eventsFor "blog.example" evs = [] := by
  refine ⟨runningAC_keysAgree, ?_, ?_⟩
  · obtain ⟨c1, evs, hs, _, hb, _, hd, _⟩ :=
      SyncTunnels_table runningAC desiredB runningAC_keysAgree
    exact ⟨c1, evs, hs, hb "app.example" tunB tunA (by decide) (by decide) (by decide),
      hd "blog.example" tunC (by decide) (by decide)⟩
  · obtain ⟨c1, evs, hs, _, hb, hc, _, _⟩ :=
      SyncTunnels_table runningAC desiredBC runningAC_keysAgree
    exact ⟨c1, evs, hs, hb "app.example" tunB tunA (by decide) (by decide) (by decide),
      hc "blog.example" tunC (by decide) (by decide)⟩

/-! ## Reconciliation: the restart branch does not record the new descriptor -/

/-- C1 evaluated at the failing input. From the empty client, `SyncTunnels` is called with
`app.example ↦ tunA`, then `app.example ↦ tunB`, then `app.example ↦ tunA` again. The
restart branch of the second call leaves `c.tunnels["app.example"]` at `tunA`, so the third
call sees no difference and does nothing: the worker running for `app.example` is the one
started with `tunB` (handle 1), while the desired descriptor is `tunA`. -/
theorem SyncTunnels_running_descriptor_stale :
    desiredA.lookup "app.example" = some tunA ∧ tunB ≠ tunA ∧
      (syncAll [desiredA, desiredB, desiredA] (NewBoringProxyClient, [])).map
          (fun r => (runningWorker "app.example" r.2, r.1.tunnels.lookup "app.example",
            r.1.cancelFuncs.lookup "app.example")) =
        some (some (tunB, 1), some tunA, some 1) := by
  decide

/-- C2 evaluated at the failing input. From the client reached by `SyncTunnels` with
`app.example ↦ tunA`, the desired state `app.example ↦ tunB` is applied twice. The first
application cancels handle 0 and starts a worker with handle 1; the second application
cancels handle 1 and starts another worker, and replaces the cancel func by handle 2. -/
theorem SyncTunnels_second_application_restarts :
    (syncAll [desiredA, desiredB] (NewBoringProxyClient, [])).map
          (fun r => (r.2, r.1.cancelFuncs.lookup "app.example")) =
        some ([Event.bore "app.example" tunA 0, Event.cancel "app.example" 0,
          Event.bore "app.example" tunB 1], some 1) ∧
      ((syncAll [desiredA, desiredB] (NewBoringProxyClient, [])).bind
          (fun r => r.1.SyncTunnels desiredB)).map
          (fun r => (r.2, r.1.cancelFuncs.lookup "app.example")) =
        some ([Event.cancel "app.example" 1, Event.bore "app.example" tunB 2], some 2) := by
  decide

/-! ## Connection router -/

/-- On a registry miss `handleTunnelConnection` dials nothing, writes the synthesised
response `HTTP/1.1 500 Internal server error`, blank line, `No tunnel attached to <name>`,
and closes. This is the only branch that writes to the connection. -/
theorem handleTunnelConnection_miss (p : BoringProxy) (Dial : String → Option String)
    (serverName err : String) (hmiss : p.GetPort serverName = .error err) :
    p.handleTunnelConnection Dial serverName =
      [.getPort serverName, .logPrint err,
        .write ("HTTP/1.1 500" ++ " Internal server error\n\n" ++
          "No tunnel attached to " ++ serverName),
        .close] := by
  simp [BoringProxy.handleTunnelConnection, hmiss]

/-- C5, the claim at a concrete input. `app.example` is registered on port 9000 and
nothing listens there: the handler dials `127.0.0.1:9000`, logs the error and closes. It
starts no copy goroutine and writes nothing, so no `HTTP/1.1 500` response is sent. -/
theorem handleTunnelConnection_dial_failure_silent :
    exampleProxy.GetPort tunA.Domain = .ok tunA.TunnelPort ∧
      noListener "127.0.0.1:9000" ≠ none ∧
      exampleProxy.handleTunnelConnection noListener tunA.Domain =
        [.getPort "app.example", .dial false "127.0.0.1:9000",
          .logPrint "connect: connection refused", .close] ∧
      spawned (exampleProxy.handleTunnelConnection noListener tunA.Domain) = [] ∧
      ¬ ∃ msg, Effect.write msg ∈ exampleProxy.handleTunnelConnection noListener tunA.Domain := by
  refine ⟨rfl, by decide, by decide, by decide, ?_⟩
  rintro ⟨msg, hmsg⟩
  have htr : exampleProxy.handleTunnelConnection noListener tunA.Domain =
      [.getPort "app.example", .dial false "127.0.0.1:9000",
        .logPrint "connect: connection refused", .close] := by decide
  rw [htr] at hmsg
  simp at hmsg

/-- C5 as amended. For every tunnel `T` whose domain the registry resolves to
`T.tunnel_port`, `handleTunnelConnection` for the server name `T.domain` dials exactly the
address `127.0.0.1:<T.tunnel_port>` and no other. When the dial succeeds it starts the two
copy goroutines between the decrypted connection and the dialed one, one per direction,
waits for both and then closes both connections. When the dial fails with `err` it logs
`err` and then closes the connection, starting no goroutine. In both cases it writes
nothing to the connection and pushes nothing to the admin listener. -/
theorem handleTunnelConnection_routes (p : BoringProxy) (Dial : String → Option String)
    (T : Tunnel) (hreg : p.GetPort T.Domain = .ok T.TunnelPort) :
    dialed (p.handleTunnelConnection Dial T.Domain) = ["127.0.0.1:" ++ toString T.TunnelPort] ∧
      (Dial ("127.0.0.1:" ++ toString T.TunnelPort) = none →
        p.handleTunnelConnection Dial T.Domain =
          [.getPort T.Domain, .dial false ("127.0.0.1:" ++ toString T.TunnelPort),
            .spawn [.copy .decryptedConn .upstreamConn, .done],
            .spawn [.copy .upstreamConn .decryptedConn, .done],
            .wait, .closeUpstream, .close]) ∧
      (∀ err, Dial ("127.0.0.1:" ++ toString T.TunnelPort) = some err →
        p.handleTunnelConnection Dial T.Domain =
          [.getPort T.Domain, .dial false ("127.0.0.1:" ++ toString T.TunnelPort),
            .logPrint err, .close]) ∧
      wroteAny (p.handleTunnelConnection Dial T.Domain) = false ∧
      Effect.adminPush ∉ p.handleTunnelConnection Dial T.Domain := by
  cases hd : Dial ("127.0.0.1:" ++ toString T.TunnelPort) with
  | none =>
    simp [BoringProxy.handleTunnelConnection, hreg, hd, dialed, wroteAny, serverCopyToClient,
      serverCopyToUpstream]
  | some err =>
    simp [BoringProxy.handleTunnelConnection, hreg, hd, dialed, wroteAny]

/-- C5 as amended, at the registered tunnel `tunA`: with a listener on port 9000 the
connection is spliced to `127.0.0.1:9000`; without one the error is logged and the
connection closed. -/
theorem handleTunnelConnection_routes_witness :
    exampleProxy.GetPort tunA.Domain = .ok tunA.TunnelPort ∧
      dialed (exampleProxy.handleTunnelConnection allListening tunA.Domain) =
        ["127.0.0.1:" ++ toString tunA.TunnelPort] ∧
      exampleProxy.handleTunnelConnection allListening tunA.Domain =
        [.getPort tunA.Domain, .dial false ("127.0.0.1:" ++ toString tunA.TunnelPort),
          .spawn [.copy .decryptedConn .upstreamConn, .done],
          .spawn [.copy .upstreamConn .decryptedConn, .done],
          .wait, .closeUpstream, .close] ∧
      exampleProxy.handleTunnelConnection noListener tunA.Domain =
        [.getPort tunA.Domain, .dial false ("127.0.0.1:" ++ toString tunA.TunnelPort),
          .logPrint "connect: connection refused", .close] :=
  ⟨rfl,
    (handleTunnelConnection_routes exampleProxy allListening tunA rfl).1,
    (handleTunnelConnection_routes exampleProxy allListening tunA rfl).2.1 rfl,
    (handleTunnelConnection_routes exampleProxy noListener tunA rfl).2.2.1 _ rfl⟩

/-- C6. Admin isolation: when the server name recorded during the handshake equals
`config.AdminDomain`, `handleConnection` pushes the connection to the admin listener and
performs no registry lookup, no dial and no write; when the recorded name is anything
else, the connection is not pushed to the admin listener. -/
theorem handleConnection_admin_isolation (p : BoringProxy) (Dial : String → Option String)
    (hs : Handshake) :
    (hs.serverName = p.config.AdminDomain →
        Effect.adminPush ∈ p.handleConnection Dial hs ∧
        lookedUp (p.handleConnection Dial hs) = false ∧
        dialed (p.handleConnection Dial hs) = [] ∧
        wroteAny (p.handleConnection Dial hs) = false) ∧
      (hs.serverName ≠ p.config.AdminDomain →
        Effect.adminPush ∉ p.handleConnection Dial hs) := by
  constructor
  · intro h
    simp [BoringProxy.handleConnection, BoringProxy.handleAdminConnection, h, lookedUp, dialed,
      wroteAny]
  · intro h
    unfold BoringProxy.handleConnection BoringProxy.handleTunnelConnection
    rw [if_neg h]
    cases p.GetPort hs.serverName with
    | error err => simp
    | ok port =>
      simp only []
      split <;> simp

/-- C6 at concrete inputs: SNI `admin.example` is pushed to the admin listener, SNI
`app.example` is not. -/
theorem handleConnection_admin_isolation_witness :
    Effect.adminPush ∈ exampleProxy.handleConnection allListening ⟨some "admin.example", none⟩ ∧
      Effect.adminPush ∉ exampleProxy.handleConnection allListening ⟨some "app.example", none⟩ :=
  ⟨((handleConnection_admin_isolation exampleProxy allListening
      ⟨some "admin.example", none⟩).1 (by decide)).1,
    (handleConnection_admin_isolation exampleProxy allListening
      ⟨some "app.example", none⟩).2 (by decide)⟩

/-- C9, the claim at concrete inputs. The handshake fails in both. With the recorded name
`admin.example` the connection is pushed to the admin listener and the router does not
close it; with the recorded name `app.example` the router looks the name up and dials the
tunnel port. -/
theorem handleConnection_failed_handshake_dispatches :
    exampleProxy.handleConnection allListening
        ⟨some "admin.example", some "remote error: tls: bad certificate"⟩ =
        [.handshake, .adminPush] ∧
      exampleProxy.handleConnection allListening
        ⟨some "app.example", some "remote error: tls: bad certificate"⟩ =
        [.handshake, .getPort "app.example", .dial false "127.0.0.1:9000",
          .spawn serverCopyToClient, .spawn serverCopyToUpstream, .wait, .closeUpstream,
          .close] := by
  decide

/-- C9 as amended. A handshake that returns an error changes nothing in what
`handleConnection` does: it dispatches by the recorded server name as for a handshake
without error. When the recorded name differs from `config.AdminDomain` the connection goes
to `handleTunnelConnection`: the registry is looked up, the connection is closed at the
end and it is not pushed to the admin listener. When the recorded name equals
`config.AdminDomain` the connection is pushed to the admin listener and the router does
not close it. -/
theorem handleConnection_handshake_error (p : BoringProxy) (Dial : String → Option String)
    (hs : Handshake) (e : String) (_herr : hs.err = some e) :
    p.handleConnection Dial hs = p.handleConnection Dial { hs with err := none } ∧
      (hs.serverName ≠ p.config.AdminDomain →
        lookedUp (p.handleConnection Dial hs) = true ∧
        (p.handleConnection Dial hs).getLast? = some Effect.close ∧
        Effect.adminPush ∉ p.handleConnection Dial hs) ∧
      (hs.serverName = p.config.AdminDomain →
        Effect.adminPush ∈ p.handleConnection Dial hs ∧
        Effect.close ∉ p.handleConnection Dial hs) := by
  refine ⟨rfl, ?_, ?_⟩
  · intro h
    unfold BoringProxy.handleConnection BoringProxy.handleTunnelConnection
    rw [if_neg h]
    cases p.GetPort hs.serverName with
    | error err => simp [lookedUp]
    | ok port =>
      simp only []
      split <;> simp [lookedUp]
  · intro h
    simp [BoringProxy.handleConnection, BoringProxy.handleAdminConnection, h]

/-- C9 as amended, at a failed handshake that recorded the name `app.example`. -/
theorem handleConnection_handshake_error_witness :
    (⟨some "app.example", some "EOF"⟩ : Handshake).err = some "EOF" ∧
      lookedUp (exampleProxy.handleConnection noListener ⟨some "app.example", some "EOF"⟩) = true ∧
      (exampleProxy.handleConnection noListener ⟨some "app.example", some "EOF"⟩).getLast? =
        some Effect.close :=
  ⟨rfl,
    ((handleConnection_handshake_error exampleProxy noListener ⟨some "app.example", some "EOF"⟩
      "EOF" rfl).2.1 (by decide)).1,
    ((handleConnection_handshake_error exampleProxy noListener ⟨some "app.example", some "EOF"⟩
      "EOF" rfl).2.1 (by decide)).2.1⟩

/-! ## Desired-state poller -/

/-- A poll whose 200 response carries the validator the client already holds returns nil,
calls nothing and leaves the client as it is. -/
theorem PollTunnels_same_etag (Unmarshal : String → Except String (GoMap Tunnel))
    (c : BoringProxyClient) (resp : Response) (h200 : resp.StatusCode = 200)
    (hetag : ∃ more, resp.Header.lookup "Etag" = some (c.previousEtag :: more)) :
    c.PollTunnels Unmarshal (.response resp) = .returned none c [] [] := by
  obtain ⟨more, hm⟩ := hetag
  simp [BoringProxyClient.PollTunnels, h200, hm]

/-- Polls that all see the validator the client holds leave the loop state as it is. -/
theorem RunPuppetClientLoop_same_etag (Unmarshal : String → Except String (GoMap Tunnel))
    (resps : List Response) :
    ∀ s : PollLoop,
      (∀ resp ∈ resps, resp.StatusCode = 200 ∧
        ∃ more, resp.Header.lookup "Etag" = some (s.c.previousEtag :: more)) →
      RunPuppetClientLoop Unmarshal (resps.map HttpOutcome.response) s = some s := by
  induction resps with
  | nil =>
    intro s _
    rfl
  | cons r rest ih =>
    intro s hsame
    have hr := hsame r (List.mem_cons_self _ _)
    have hp := PollTunnels_same_etag Unmarshal s.c r hr.1 hr.2
    simp only [List.map_cons, RunPuppetClientLoop, hp, Option.toList_none, List.append_nil]
    exact ih s (fun x hx => hsame x (List.mem_cons_of_mem _ hx))

/-- A poll whose 200 response carries a validator other than the one the client holds,
with a body that parses and a `SyncTunnels` call that returns, calls `SyncTunnels` once
and records the new validator (line 172). -/
theorem PollTunnels_reconcile (Unmarshal : String → Except String (GoMap Tunnel))
    (c : BoringProxyClient) (resp : Response) (etag : String) (more : List String)
    (D : GoMap Tunnel) (r : BoringProxyClient × List Event) (h200 : resp.StatusCode = 200)
    (hetag : resp.Header.lookup "Etag" = some (etag :: more)) (hnew : etag ≠ c.previousEtag)
    (hbody : Unmarshal resp.Body = .ok D) (hsync : c.SyncTunnels D = some r) :
    c.PollTunnels Unmarshal (.response resp) =
      .returned none { r.1 with previousEtag := etag } [D] r.2 := by
  simp [BoringProxyClient.PollTunnels, h200, hetag, hnew, hbody, hsync]

/-- C7. ETag economy. For every client state and every 200 response whose `Etag` header
value equals `c.previousEtag`, `PollTunnels` returns nil, makes no `SyncTunnels` call (so
no cancel and no worker start) and leaves the client, with `tunnels`, `cancelFuncs` and
`previousEtag`, unchanged; any number of consecutive polls of the loop that all see that
validator log nothing, make no `SyncTunnels` call and leave the client unchanged.
Consequently, after a successful reconcile, that is a poll answered 200 with a new
validator `etag` whose body parses to `D` and whose `SyncTunnels(D)` returns, the client
holds `etag`, and any number of further polls that all see `etag` add no `SyncTunnels`
call: the loop has made the one call for `D` and no other. -/
theorem PollTunnels_etag_economy (Unmarshal : String → Except String (GoMap Tunnel)) :
    (∀ (c : BoringProxyClient) (resps : List Response),
        (∀ resp ∈ resps, resp.StatusCode = 200 ∧
          ∃ more, resp.Header.lookup "Etag" = some (c.previousEtag :: more)) →
        (∀ resp ∈ resps, c.PollTunnels Unmarshal (.response resp) = .returned none c [] []) ∧
          ∀ s : PollLoop, s.c = c →
            RunPuppetClientLoop Unmarshal (resps.map HttpOutcome.response) s = some s) ∧
      ∀ (s : PollLoop) (first : Response) (etag : String) (more : List String)
        (D : GoMap Tunnel) (r : BoringProxyClient × List Event) (resps : List Response),
        first.StatusCode = 200 → first.Header.lookup "Etag" = some (etag :: more) →
        etag ≠ s.c.previousEtag → Unmarshal first.Body = .ok D → s.c.SyncTunnels D = some r →
        (∀ resp ∈ resps, resp.StatusCode = 200 ∧
          ∃ more, resp.Header.lookup "Etag" = some (etag :: more)) →
        RunPuppetClientLoop Unmarshal ((first :: resps).map HttpOutcome.response) s =
          some { c := { r.1 with previousEtag := etag }, logged := s.logged,
                 calls := s.calls ++ [D], events := s.events ++ r.2 } := by
  constructor
  · intro c resps hsame
    constructor
    · intro resp hr
      exact PollTunnels_same_etag Unmarshal c resp (hsame resp hr).1 (hsame resp hr).2
    · intro s hs
      subst hs
      exact RunPuppetClientLoop_same_etag Unmarshal resps s hsame
  · intro s first etag more D r resps h200 hetag hnew hbody hsync hsame
    have hp := PollTunnels_reconcile Unmarshal s.c first etag more D r h200 hetag hnew hbody hsync
    simp only [List.map_cons, RunPuppetClientLoop, hp, Option.toList_none, List.append_nil]
    exact RunPuppetClientLoop_same_etag Unmarshal resps _ hsame

/-- C7 at concrete inputs. The client `runningAC` holds the validator `v1` and polls three
times, each poll answered 200 with `Etag: v1`: nothing happens. The fresh client polls
three times, each poll answered 200 with `Etag: v1` and a body that parses to `desiredA`:
the first poll reconciles, starting one worker, and the loop makes that one `SyncTunnels`
call only. -/
theorem PollTunnels_etag_economy_witness :
    RunPuppetClientLoop rejectJson
          ([sameEtagResponse, sameEtagResponse, sameEtagResponse].map HttpOutcome.response)
          ⟨runningAC, [], [], []⟩ =
        some ⟨runningAC, [], [], []⟩ ∧
      (RunPuppetClientLoop parseExample
          ([firstResponse, firstResponse, firstResponse].map HttpOutcome.response)
          ⟨NewBoringProxyClient, [], [], []⟩).map
          (fun s => (s.c.previousEtag, s.calls.map (fun d => d.entries), s.events, s.logged)) =
        some ("v1", [desiredA.entries], [Event.bore "app.example" tunA 0], []) := by
  have same : ∀ resp ∈ [sameEtagResponse, sameEtagResponse, sameEtagResponse],
      resp.StatusCode = 200 ∧
      ∃ more, resp.Header.lookup "Etag" = some (runningAC.previousEtag :: more) := by
    intro resp hr
    simp only [List.mem_cons, List.mem_singleton, List.not_mem_nil, or_false, or_self] at hr
    subst hr
    exact ⟨rfl, [], by decide⟩
  have later : ∀ resp ∈ [firstResponse, firstResponse],
      resp.StatusCode = 200 ∧ ∃ more, resp.Header.lookup "Etag" = some ("v1" :: more) := by
    intro resp hr
    simp only [List.mem_cons, List.mem_singleton, List.not_mem_nil, or_false, or_self] at hr
    subst hr
    exact ⟨rfl, [], by decide⟩
  have hsync : NewBoringProxyClient.SyncTunnels desiredA =
      some ({ tunnels := AList.insert "app.example" tunA ∅, previousEtag := "",
              cancelFuncs := AList.insert "app.example" 0 ∅, contexts := 1 },
        [Event.bore "app.example" tunA 0]) := by
    rfl
  refine ⟨((PollTunnels_etag_economy rejectJson).1 runningAC _ same).2 ⟨runningAC, [], [], []⟩ rfl,
    ?_⟩
  rw [(PollTunnels_etag_economy parseExample).2 ⟨NewBoringProxyClient, [], [], []⟩ firstResponse
    "v1" [] desiredA _ [firstResponse, firstResponse] rfl (by decide) (by decide) rfl hsync later]
  rfl

/-- The parts of C10 that hold: a failed request and a response with a status other than
200 make `PollTunnels` return an error, with no `SyncTunnels` call and the client
unchanged. -/
theorem PollTunnels_errors_leave_client (Unmarshal : String → Except String (GoMap Tunnel))
    (c : BoringProxyClient) :
    (∀ err, c.PollTunnels Unmarshal (.newRequestError err) = .returned (some err) c [] []) ∧
      (∀ err, c.PollTunnels Unmarshal (.doError err) = .returned (some err) c [] []) ∧
      (∀ resp, resp.StatusCode ≠ 200 →
        c.PollTunnels Unmarshal (.response resp) =
          .returned (some "Failed to listen (not 200 status)") c [] []) := by
  refine ⟨fun _ => rfl, fun _ => rfl, ?_⟩
  intro resp h
  simp [BoringProxyClient.PollTunnels, h]

/-- C10 evaluated at the failing input: a 200 response without an `Etag` header. The
index expression on line 157 panics, `PollTunnels` does not return, and the poll loop of
`RunPuppetClient` ends with it. -/
theorem PollTunnels_missing_etag_panics :
    noEtagResponse.StatusCode = 200 ∧ noEtagResponse.Header.lookup "Etag" = none ∧
      (∃ reason, NewBoringProxyClient.PollTunnels rejectJson (.response noEtagResponse) =
        .panicked reason) ∧
      (RunPuppetClientLoop rejectJson [.response noEtagResponse]
        ⟨NewBoringProxyClient, [], [], []⟩).isNone = true := by
  refine ⟨rfl, by decide, ⟨_, rfl⟩, by decide⟩

/-! ## Byte splices -/

/-- C8, the claim at concrete inputs, every copy ending at EOF. Neither goroutine of the
router's splice calls `CloseWrite` on its destination, and the client's goroutine that
copies the response to the tunnel connection does not call `CloseWrite` on it but closes
it. -/
theorem splice_half_close_missing :
    spawned (exampleProxy.handleTunnelConnection allListening "app.example") =
        [serverCopyToClient, serverCopyToUpstream] ∧
      SpliceAction.closeWrite .upstreamConn ∉ serverCopyToUpstream ∧
      SpliceAction.closeWrite .decryptedConn ∉ serverCopyToClient ∧
      spawned (BoringProxyClient.handleConnection (fun _ _ => none) none none "127.0.0.1" 8080) =
        [clientCopyToUpstream .tcpConn none, clientCopyToDownstream none] ∧
      SpliceAction.closeWrite .conn ∉ clientCopyToDownstream none ∧
      SpliceAction.close .conn ∈ clientCopyToDownstream none := by
  decide

/-- C8 as amended. Half-close happens in one direction of one splice.

Client: whenever the dial of `handleConnection` succeeds, the handler starts the request
goroutine and the response goroutine, waits for both and only then runs the deferred
closes; the upstream is a `*tls.Conn` exactly when the address has the `https://` prefix
and a `*net.TCPConn` otherwise. The request goroutine calls `CloseWrite` on the upstream
connection after its copy and does not close it; when the copy ends at EOF it does
nothing else. The response goroutine closes the tunnel connection after its copy and
never calls `CloseWrite` on it.

Router: whenever the registry resolves the name and the dial succeeds,
`handleTunnelConnection` starts its two goroutines, waits for both and only then runs the
deferred closes of both connections; each goroutine copies and does nothing else, so
neither calls `CloseWrite` or `Close`. -/
theorem splice_half_close (Dial : Bool → String → Option String) (upErr downErr : Option String)
    (upstreamAddr : String) (port : Int) (p : BoringProxy) (ServerDial : String → Option String)
    (serverName : String) (tunnelPort : Int) :
    (Dial (upstreamUsesTls upstreamAddr) (upstreamTarget upstreamAddr port) = none →
        ∃ kind, kind ≠ ConnKind.other ∧
          (kind = ConnKind.tlsConn ↔ upstreamUsesTls upstreamAddr = true) ∧
          BoringProxyClient.handleConnection Dial upErr downErr upstreamAddr port =
            [.dial (upstreamUsesTls upstreamAddr) (upstreamTarget upstreamAddr port),
              .spawn (clientCopyToUpstream kind upErr), .spawn (clientCopyToDownstream downErr),
              .wait, .closeUpstream, .close]) ∧
      (∀ kind, kind ≠ ConnKind.other →
        SpliceAction.closeWrite .upstreamConn ∈ clientCopyToUpstream kind upErr ∧
        SpliceAction.close .upstreamConn ∉ clientCopyToUpstream kind upErr ∧
        clientCopyToUpstream kind none =
          [.copy .upstreamConn .conn, .closeWrite .upstreamConn, .done]) ∧
      (SpliceAction.close .conn ∈ clientCopyToDownstream downErr ∧
        SpliceAction.closeWrite .conn ∉ clientCopyToDownstream downErr ∧
        clientCopyToDownstream none = [.copy .conn .upstreamConn, .close .conn, .done]) ∧
      (p.GetPort serverName = .ok tunnelPort →
        ServerDial ("127.0.0.1:" ++ toString tunnelPort) = none →
        p.handleTunnelConnection ServerDial serverName =
          [.getPort serverName, .dial false ("127.0.0.1:" ++ toString tunnelPort),
            .spawn [.copy .decryptedConn .upstreamConn, .done],
            .spawn [.copy .upstreamConn .decryptedConn, .done],
            .wait, .closeUpstream, .close]) := by
  refine ⟨?_, ?_, ?_, ?_⟩
  · intro hd
    cases ht : upstreamUsesTls upstreamAddr with
    | true =>
      rw [ht] at hd
      exact ⟨.tlsConn, by decide, by simp, by simp [BoringProxyClient.handleConnection, hd, ht]⟩
    | false =>
      rw [ht] at hd
      exact ⟨.tcpConn, by decide, by simp, by simp [BoringProxyClient.handleConnection, hd, ht]⟩
  · intro kind hk
    cases kind with
    | other => exact absurd rfl hk
    | tcpConn => cases upErr <;> simp [clientCopyToUpstream]
    | tlsConn => cases upErr <;> simp [clientCopyToUpstream]
  · cases downErr <;> simp [clientCopyToDownstream]
  · intro hreg hd
    simp [BoringProxy.handleTunnelConnection, hreg, hd, serverCopyToClient, serverCopyToUpstream]

/-- C8 as amended, at concrete inputs: a plain TCP upstream and an `https://` upstream of
the client, and the registered tunnel of the router. -/
theorem splice_half_close_witness :
    (∃ kind, kind ≠ ConnKind.other ∧
        (kind = ConnKind.tlsConn ↔ upstreamUsesTls "127.0.0.1" = true) ∧
        BoringProxyClient.handleConnection (fun _ _ => none) none none "127.0.0.1" 8080 =
          [.dial false "127.0.0.1:8080",
            .spawn (clientCopyToUpstream kind none), .spawn (clientCopyToDownstream none),
            .wait, .closeUpstream, .close]) ∧
      (∃ kind, kind ≠ ConnKind.other ∧
        (kind = ConnKind.tlsConn ↔ upstreamUsesTls "https://localhost" = true) ∧
        BoringProxyClient.handleConnection (fun _ _ => none) none none "https://localhost" 8443 =
          [.dial true "localhost:8443",
            .spawn (clientCopyToUpstream kind none), .spawn (clientCopyToDownstream none),
            .wait, .closeUpstream, .close]) ∧
      exampleProxy.handleTunnelConnection allListening "app.example" =
        [.getPort "app.example", .dial false "127.0.0.1:9000",
          .spawn [.copy .decryptedConn .upstreamConn, .done],
          .spawn [.copy .upstreamConn .decryptedConn, .done],
          .wait, .closeUpstream, .close] :=
  ⟨(splice_half_close (fun _ _ => none) none none "127.0.0.1" 8080 exampleProxy allListening
      "app.example" 9000).1 rfl,
    (splice_half_close (fun _ _ => none) none none "https://localhost" 8443 exampleProxy
      allListening "app.example" 9000).1 rfl,
    (splice_half_close (fun _ _ => none) none none "127.0.0.1" 8080 exampleProxy allListening
      "app.example" 9000).2.2.2 rfl rfl⟩
